import Mathlib

/-!
Verification development for the WalletAI repository.

The frontend chat components (`ChatInput`, `ChatContainer.handleSubmit`,
`Message.tsx`) are embedded directly from the TypeScript sources.  The
backend LangGraph agent (`backend/app/ai/agent.py`, `nodes.py`, `tools.py`,
`state.py`) is not included in the available sources — only its README and
the specification describe it — so the agent core is modelled from the
specification, as marked on each such definition.
-/

namespace WalletAI

/-! ## Frontend: ChatInput (src/frontend ChatInput component) -/

/-- Whitespace characters removed by JavaScript string trimming (the common
ASCII ones suffice for the inputs considered here). -/
def isWhitespaceChar (c : Char) : Bool :=
  c == ' ' || c == '\t' || c == '\n' || c == '\r'

/-- JavaScript `String.prototype.trim`: removes leading and trailing
whitespace characters. -/
def jsTrim (s : String) : String :=
  ⟨((s.data.dropWhile isWhitespaceChar).reverse.dropWhile isWhitespaceChar).reverse⟩

/-- From ChatInput: the character limit on the chat input field
(`const maxLength = 500`, passed as the maxLength attribute of the field). -/
def maxLength : Nat := 500

/-- From ChatInput: `const isDisabled = isLoading || !input.trim()` —
the send button is disabled while loading or when the trimmed input is empty
(a JavaScript string is falsy exactly when it is empty). -/
def isDisabled (input : String) (isLoading : Bool) : Bool :=
  isLoading || (jsTrim input).isEmpty

/-- The input field carries `maxLength={maxLength}`: an input value is accepted
by the field exactly when its length does not exceed the limit. -/
def inputAccepts (s : String) : Bool :=
  decide (s.length ≤ maxLength)

/-! ## Frontend: ChatContainer.handleSubmit (src/frontend ChatContainer) -/

/-- The part of the useChat state that `handleSubmit` touches: the ordered
message list, the controlled input value, and the loading flag
(`isLoading = status === submitted || status === streaming`). -/
structure ChatUIState where
  messages : List String
  input : String
  isLoading : Bool
deriving DecidableEq, Repr

/-- `sendMessage({ text })` appends one message carrying the text to the list. -/
def sendMessage (st : ChatUIState) (text : String) : ChatUIState :=
  { st with messages := st.messages ++ [text] }

/-- From ChatContainer: `handleSubmit` —
`if (!input.trim() || isLoading) return; sendMessage({ text: input }); setInput('')`. -/
def handleSubmit (st : ChatUIState) : ChatUIState :=
  if (jsTrim st.input).isEmpty || st.isLoading then st
  else { sendMessage st st.input with input := "" }

/-! ## Data model (spec §3), stream chunk tags (Message.tsx `StreamResponse`) -/

/-- Role of a conversation turn, from the spec data model and the
frontend `ChatMessage`/`ApiChatRequest` types. -/
inductive Role where
  | user
  | assistant
deriving DecidableEq, Repr

/-- Modelled from the spec: a conversation turn
`{role: user|assistant, content: text, timestamp}` (spec §3); the backend
state module that realises it is not in the available sources. -/
structure Turn where
  role : Role
  content : String
  timestamp : Nat
deriving DecidableEq, Repr

/-- From Message.tsx `StreamResponse`: the chunk `type` tag is drawn from
the union `text | tool_call | error | complete`. -/
inductive ChunkType where
  | text
  | tool_call
  | error
  | complete
deriving DecidableEq, Repr

/-- From Message.tsx `StreamResponse`: a stream chunk is a record with a
`content` text fragment and a `type` tag. -/
structure Chunk where
  content : String
  type : ChunkType
deriving DecidableEq, Repr

/-- Modelled from the spec: the intent enumeration
`{spending-lookup, comparison, category-analysis, clarification-needed, other}`
(spec §3); `state.py` with `INTENT_TYPES` is not in the available sources. -/
inductive Intent where
  | spendingLookup
  | comparison
  | categoryAnalysis
  | clarificationNeeded
  | other
deriving DecidableEq, Repr

/-- Modelled from the spec: entity slot names
`(category, merchant, account type, date range)` (spec §3). -/
inductive Slot where
  | category
  | merchant
  | accountType
  | dateRange
deriving DecidableEq, Repr

/-- Extracted entities: a mapping of slot name to value (spec §3). -/
abbrev Entities := List (Slot × String)

/-- Modelled from the spec: the four read-only query tools of the registry
(spec §2, README tool table); `tools.py` is not in the available sources. -/
inductive ToolName where
  | get_transactions_by_category
  | get_transactions_by_merchant
  | get_transactions_by_account
  | get_transactions_between_dates
deriving DecidableEq, Repr

/-- Modelled from the spec: a tool call `{tool name, arguments}` created by
the decision node, with the call id used to tag its result (spec §3, §4.2). -/
structure ToolCall where
  id : Nat
  name : ToolName
  args : List (String × String)
deriving DecidableEq, Repr

/-- A transaction record returned by the transaction query service (spec §6). -/
structure Transaction where
  merchant : String
  category : String
  amount : Int
  date : Nat
deriving DecidableEq, Repr

/-- Modelled from the spec: a tool result is `result: mapping or error`
(spec §3) — an ordered sequence of transaction records or a structured
error. -/
inductive ToolResult where
  | ok (txs : List Transaction)
  | err (msg : String)
deriving DecidableEq, Repr

/-- Whether a tool result is an error. -/
def ToolResult.isErr : ToolResult → Bool
  | .ok _ => false
  | .err _ => true

/-- Modelled from the spec: the agent state record (spec §3) threaded
through each node; `state.py` is not in the available sources. -/
structure AgentState where
  history : List Turn
  intent : Option Intent
  entities : Entities
  pendingToolCalls : List ToolCall
  toolResults : List (Nat × ToolResult)
  finalResponse : Option String
deriving DecidableEq, Repr

/-! ## Intent / decision node (spec §4.1), modelled from the spec -/

/-- Modelled from the spec: the outcome of the external language-model call,
the capability interface of spec §9 — text, a structured tool request, or a
failure / timeout; the model wrapper in `nodes.py` is not in the sources. -/
inductive LLMOutcome where
  | text (t : String)
  | toolRequest (calls : List ToolCall)
  | failure
  | timeout
deriving DecidableEq, Repr

/-- Whether the model call returned a usable answer (text or tool request),
as opposed to failing or timing out. -/
def LLMOutcome.isOk : LLMOutcome → Bool
  | .text _ => true
  | .toolRequest _ => true
  | .failure => false
  | .timeout => false

/-- Modelled from the spec: the deterministic canned fallback response used
when the model call fails or times out (spec §4.1, §7(a)). -/
def fallbackResponse : String :=
  "I am having trouble processing your request right now. Please try again."

/-- Modelled from the spec: the required entity slots per classified intent —
a category query with no category named is incomplete (spec §4.1). -/
def requiredSlots : Intent → List Slot
  | .spendingLookup => [.category]
  | .categoryAnalysis => [.category]
  | .comparison => []
  | .clarificationNeeded => []
  | .other => []

/-- Whether every required slot of the intent has an extracted entity. -/
def entitiesComplete (intent : Intent) (ents : Entities) : Bool :=
  (requiredSlots intent).all (fun s => ents.any (fun p => p.1 == s))

/-- Modelled from the spec: the clarification question emitted when required
entities are missing (spec §4.1; `generate_clarification_node`). -/
def clarificationQuestion : Intent → String
  | .spendingLookup => "Which category or time period would you like me to look at?"
  | .categoryAnalysis => "Which category would you like me to analyze?"
  | .comparison => "Which periods would you like me to compare?"
  | .clarificationNeeded => "Could you tell me more about what you would like to know?"
  | .other => "Could you clarify your question?"

/-- The decision node output: a sum type over
{non-empty tool calls, final response, clarification} (spec §4.1, §9). -/
inductive Decision where
  | toolCalls (calls : List ToolCall)
  | finalResponse (t : String)
  | clarification (q : String)
deriving DecidableEq, Repr

/-- Modelled from the spec: the intent/decision node (spec §4.1).  A failed
or timed-out model call falls back to the deterministic canned response;
with a usable model answer, missing required entities (or an intent
classified as clarification-needed) yield a clarification question; else
the model answer becomes tool calls or a direct final response. -/
def decideNode (llm : LLMOutcome) (intent : Intent) (ents : Entities) : Decision :=
  match llm with
  | .failure => .finalResponse fallbackResponse
  | .timeout => .finalResponse fallbackResponse
  | .text t =>
    if intent == .clarificationNeeded || !entitiesComplete intent ents then
      .clarification (clarificationQuestion intent)
    else
      .finalResponse t
  | .toolRequest calls =>
    if intent == .clarificationNeeded || !entitiesComplete intent ents then
      .clarification (clarificationQuestion intent)
    else
      match calls with
      | [] => .finalResponse fallbackResponse
      | c :: rest => .toolCalls (c :: rest)

/-- Modelled from the spec: recording the decision in the agent state; the
clarification is itself the emitted response for the turn (spec §4.4). -/
def applyDecision (st : AgentState) (d : Decision) : AgentState :=
  match d with
  | .toolCalls calls => { st with pendingToolCalls := calls, finalResponse := none }
  | .finalResponse t => { st with pendingToolCalls := [], finalResponse := some t }
  | .clarification q => { st with pendingToolCalls := [], finalResponse := some q }

/-! ## Tool execution node (spec §4.2), modelled from the spec -/

/-- Look up an argument by key in a call's argument mapping. -/
def lookupArg (args : List (String × String)) (key : String) : Option String :=
  (args.find? (fun p => p.1 == key)).map (fun p => p.2)

/-- Modelled from the spec: argument validation against each tool's expected
schema — the date-range tool requires two parseable dates with start ≤ end
(spec §4.2); dates are modelled as numeric day codes.  Returns an error
message when validation fails. -/
def validateCall (c : ToolCall) : Option String :=
  match c.name with
  | .get_transactions_between_dates =>
    match lookupArg c.args "start_date", lookupArg c.args "end_date" with
    | some s, some e =>
      match s.toNat?, e.toNat? with
      | some ds, some de => if ds ≤ de then none else some "start date is after end date"
      | _, _ => some "dates are not parseable"
    | _, _ => some "missing date argument"
  | .get_transactions_by_category =>
    if (lookupArg c.args "category").isSome then none else some "missing category"
  | .get_transactions_by_merchant =>
    if (lookupArg c.args "merchant").isSome then none else some "missing merchant"
  | .get_transactions_by_account =>
    if (lookupArg c.args "account_type").isSome then none else some "missing account type"

/-- The transaction query service capability (spec §6, §9): given a typed
call, an ordered sequence of transaction records or a store-level error. -/
abbrev Store := ToolCall → Except String (List Transaction)

/-- Modelled from the spec: executing one tool call — invalid arguments
become a validation error result, not a crash; a store failure becomes a
tool-level error result (spec §4.2, §7(b,c)). -/
def execTool (store : Store) (c : ToolCall) : ToolResult :=
  match validateCall c with
  | some msg => .err ("validation error: " ++ msg)
  | none =>
    match store c with
    | .ok txs => .ok txs
    | .error msg => .err msg

/-- Modelled from the spec: the tool execution node — every call in the
batch is attempted, and each result is tagged with the id of the call that
produced it (spec §4.2). -/
def execTools (store : Store) (calls : List ToolCall) : List (Nat × ToolResult) :=
  calls.map (fun c => (c.id, execTool store c))

/-! ## Response generation node (spec §4.3), modelled from the spec -/

/-- Rendering of one tagged tool result inside the final response: a
successful result is summarised, a failed one is noted with its error. -/
def renderResult : Nat × ToolResult → String
  | (i, .ok txs) =>
    " For query " ++ toString i ++ " I found " ++ toString txs.length ++
    " transactions totaling " ++ toString (txs.map (fun t => t.amount)).sum ++ "."
  | (i, .err msg) =>
    " Query " ++ toString i ++ " failed (" ++ msg ++ ")."

/-- Concatenation of the renderings of a batch of tagged tool results. -/
def renderResults : List (Nat × ToolResult) → String
  | [] => ""
  | r :: rest => renderResult r ++ renderResults rest

/-- Modelled from the spec: the apology opening used when every tool call in
the batch failed — the response must mention the inability to retrieve data
(spec §7(c), §8). -/
def apologyText : String :=
  "I apologize: I was unable to retrieve your data. Please try again later."

/-- Opening of a response that carries at least one successful result. -/
def summaryHeader : String :=
  "Here is what I found."

/-- Modelled from the spec: the response generation node (spec §4.3) —
input is either a direct model answer or the batch of tagged tool results;
output is always non-empty text, incorporates every successful result,
notes every failure, and apologises when every call failed. -/
def generateResponse (direct : Option String) (results : List (Nat × ToolResult)) : String :=
  match direct with
  | some t => if t.isEmpty then fallbackResponse else t
  | none =>
    if results.isEmpty then fallbackResponse
    else if results.all (fun r => r.2.isErr) then apologyText ++ renderResults results
    else summaryHeader ++ renderResults results

/-! ## Streaming adapter (spec §4.5), modelled from the spec -/

/-- The final completion marker chunk of a turn. -/
def completeChunk : Chunk := { content := "", type := .complete }

/-- A tool-invocation notice chunk for one pending call. -/
def toolNotice (c : ToolCall) : Chunk :=
  { content := "calling tool " ++ toString c.id, type := .tool_call }

/-- An error chunk for one failed tagged result. -/
def errNotice (r : Nat × ToolResult) : Chunk :=
  { content := "tool " ++ toString r.1 ++ " reported an error", type := .error }

/-- Whether a chunk carries the completion marker tag. -/
def isCompleteChunk (c : Chunk) : Bool :=
  match c.type with
  | .complete => true
  | _ => false

/-- Modelled from the spec: the streaming adapter (spec §4.5) — chunks are
emitted in arrival order (tool notices, error notices, the response text)
and the stream ends with exactly one completion marker. -/
def chunkStream (d : Decision) (results : List (Nat × ToolResult)) (resp : String) : List Chunk :=
  (match d with
   | .toolCalls calls => calls.map toolNotice
   | _ => []) ++
  (results.filter (fun r => r.2.isErr)).map errNotice ++
  [{ content := resp, type := .text }] ++
  [completeChunk]

/-! ## Orchestrator (spec §4.4), modelled from the spec -/

/-- Modelled from the spec: the orchestrator states (spec §4.4). -/
inductive OrchState where
  | start
  | analyzingIntent
  | awaitingClarification
  | executingTools
  | generatingResponse
  | done
deriving DecidableEq, Repr

/-- Modelled from the spec: the sequence of orchestrator states visited in
one turn, determined by the decision (spec §4.4): clarification is terminal
for the turn; tool calls lead through one tool round to response
generation; a direct answer goes straight to response generation. -/
def turnTrace (d : Decision) : List OrchState :=
  [.start, .analyzingIntent] ++
  match d with
  | .clarification _ => [.awaitingClarification, .done]
  | .toolCalls _ => [.executingTools, .generatingResponse, .done]
  | .finalResponse _ => [.generatingResponse, .done]

/-- The observable output of one orchestrated turn. -/
structure TurnOutput where
  response : String
  newHistory : List Turn
  results : List (Nat × ToolResult)
  stream : List Chunk
deriving Repr

/-- Modelled from the spec: one full orchestrated turn (spec §4.4, §5):
decision, then at most one tool-execution round, then response generation;
the user turn and the emitted assistant turn are appended to the history
and the streaming adapter renders the chunk stream. -/
def runTurn (llm : LLMOutcome) (intent : Intent) (ents : Entities) (store : Store)
    (history : List Turn) (userMsg : String) (tUser tAsst : Nat) : TurnOutput :=
  let d := decideNode llm intent ents
  let rs := match d with
    | .toolCalls calls => execTools store calls
    | _ => []
  let resp := match d with
    | .clarification q => q
    | .finalResponse t => generateResponse (some t) []
    | .toolCalls _ => generateResponse none rs
  { response := resp
    newHistory := history ++ [⟨.user, userMsg, tUser⟩, ⟨.assistant, resp, tAsst⟩]
    results := rs
    stream := chunkStream d rs resp }

/-- A sample in-memory transaction store used for concrete scenarios: every
valid query returns an empty sequence of records. -/
def sampleStore : Store := fun _ => Except.ok []

/-- A sample well-formed category query. -/
def sampleGoodCall : ToolCall :=
  { id := 1, name := .get_transactions_by_category, args := [("category", "groceries")] }

/-- A sample malformed merchant query (missing the merchant argument), which
fails validation. -/
def sampleBadCall : ToolCall :=
  { id := 2, name := .get_transactions_by_merchant, args := [] }

/-! ## Helper notions and lemmas -/

/-- `resp` mentions `sub`: the text `sub` occurs contiguously inside `resp`. -/
def mentions (resp sub : String) : Prop :=
  ∃ pre post : List Char, resp.data = pre ++ sub.data ++ post

theorem mentions_self (s : String) : mentions s s :=
  ⟨[], [], by simp⟩

theorem mentions_append_left {t s : String} (u : String) (h : mentions t s) :
    mentions (u ++ t) s := by
  obtain ⟨pre, post, hp⟩ := h
  exact ⟨u.data ++ pre, post, by simp [String.data_append, hp]⟩

theorem mentions_append_right {t s : String} (u : String) (h : mentions t s) :
    mentions (t ++ u) s := by
  obtain ⟨pre, post, hp⟩ := h
  exact ⟨pre, post ++ u.data, by simp [String.data_append, hp]⟩

theorem mentions_renderResults {r : Nat × ToolResult} {rs : List (Nat × ToolResult)}
    (h : r ∈ rs) : mentions (renderResults rs) (renderResult r) := by
  induction rs with
  | nil => cases h
  | cons a tail ih =>
    simp only [renderResults]
    rcases List.mem_cons.mp h with rfl | htail
    · exact mentions_append_right _ (mentions_self _)
    · exact mentions_append_left _ (ih htail)

theorem eq_empty_of_data_eq_nil {s : String} (h : s.data = []) : s = "" := by
  cases s with
  | mk data => simp_all [String.ext_iff]

theorem append_ne_empty_left {a : String} (b : String) (h : a ≠ "") : a ++ b ≠ "" := by
  intro hc
  apply h
  apply eq_empty_of_data_eq_nil
  have := congrArg String.data hc
  rw [String.data_append] at this
  exact (List.append_eq_nil.mp this).1

/-! ## Claim theorems: frontend -/

/-- Claim C9: for every value of the chat input string and loading flag, the
send button is disabled exactly when the interface is loading or the input is
empty after trimming whitespace, and the input field accepts a value exactly
when it has at most 500 characters. -/
theorem send_button_disabled_iff (input : String) (loading : Bool) :
    (isDisabled input loading = true ↔ (loading = true ∨ jsTrim input = "")) ∧
    (∀ s : String, inputAccepts s = true ↔ s.length ≤ 500) := by
  constructor
  · simp [isDisabled, Bool.or_eq_true, String.isEmpty_iff, or_comm]
  · intro s
    simp [inputAccepts, maxLength]

/-- Claim C10: on submit, a whitespace-only input or an in-flight response
leaves the state unchanged (no message sent); otherwise exactly one message
carrying the input text is appended and the input field is reset to empty. -/
theorem handleSubmit_guard_and_send (st : ChatUIState) :
    ((jsTrim st.input = "" ∨ st.isLoading = true) → handleSubmit st = st) ∧
    (jsTrim st.input ≠ "" → st.isLoading = false →
      (handleSubmit st).messages = st.messages ++ [st.input] ∧
      (handleSubmit st).input = "") := by
  constructor
  · intro h
    have hb : ((jsTrim st.input).isEmpty || st.isLoading) = true := by
      rcases h with h | h
      · simp [String.isEmpty_iff, h]
      · simp [h]
    simp [handleSubmit, hb]
  · intro h1 h2
    have hne : (jsTrim st.input).isEmpty = false := by
      rw [Bool.eq_false_iff]
      simp only [ne_eq, String.isEmpty_iff]
      exact h1
    have hb : ((jsTrim st.input).isEmpty || st.isLoading) = false := by
      simp [hne, h2]
    simp [handleSubmit, hb, sendMessage]

/-- Witness for C10: a whitespace-only submit leaves the state unchanged, and
a real submit appends exactly the typed message and clears the input. -/
theorem handleSubmit_guard_and_send_witness :
    handleSubmit ⟨[], " ", false⟩ = ⟨[], " ", false⟩ ∧
    ((handleSubmit ⟨[], "hi", false⟩).messages = [] ++ ["hi"] ∧
      (handleSubmit ⟨[], "hi", false⟩).input = "") :=
  ⟨(handleSubmit_guard_and_send ⟨[], " ", false⟩).1 (Or.inl (by decide)),
   (handleSubmit_guard_and_send ⟨[], "hi", false⟩).2 (by decide) rfl⟩

/-! ## Stream lemmas -/

theorem countP_isCompleteChunk_toolNotice (calls : List ToolCall) :
    calls.countP (isCompleteChunk ∘ toolNotice) = 0 := by
  apply List.countP_eq_zero.mpr
  intro a _
  simp [Function.comp_apply, toolNotice, isCompleteChunk]

theorem countP_isCompleteChunk_errNotice (rs : List (Nat × ToolResult)) :
    rs.countP (isCompleteChunk ∘ errNotice) = 0 := by
  apply List.countP_eq_zero.mpr
  intro a _
  simp [Function.comp_apply, errNotice, isCompleteChunk]

theorem chunkStream_countP (d : Decision) (rs : List (Nat × ToolResult)) (resp : String) :
    (chunkStream d rs resp).countP isCompleteChunk = 1 := by
  cases d <;>
    simp [chunkStream, List.countP_append, List.countP_cons,
      countP_isCompleteChunk_toolNotice, countP_isCompleteChunk_errNotice,
      isCompleteChunk, completeChunk]

theorem chunkStream_getLast (d : Decision) (rs : List (Nat × ToolResult)) (resp : String) :
    (chunkStream d rs resp).getLast? = some completeChunk := by
  cases d <;> simp [chunkStream, List.getLast?_append]

theorem runTurn_stream_getLast (llm : LLMOutcome) (intent : Intent) (ents : Entities)
    (store : Store) (history : List Turn) (userMsg : String) (tUser tAsst : Nat) :
    (runTurn llm intent ents store history userMsg tUser tAsst).stream.getLast? =
      some completeChunk :=
  chunkStream_getLast _ _ _

theorem chunkType_cases (c : Chunk) :
    c.type = ChunkType.text ∨ c.type = ChunkType.tool_call ∨
    c.type = ChunkType.error ∨ c.type = ChunkType.complete := by
  cases h : c.type <;> simp

/-! ## Claim theorems: agent core (modelled from the spec) -/

/-- Claim C1: for every input turn — failing ones included — the emitted
chunk stream contains exactly one complete-tagged chunk, that chunk is the
last chunk of the turn, and every chunk type tag is drawn from
{text, tool_call, error, complete}. -/
theorem stream_exactly_one_complete
    (llm : LLMOutcome) (intent : Intent) (ents : Entities) (store : Store)
    (history : List Turn) (userMsg : String) (tUser tAsst : Nat) :
    ((runTurn llm intent ents store history userMsg tUser tAsst).stream.countP
      isCompleteChunk = 1) ∧
    ((runTurn llm intent ents store history userMsg tUser tAsst).stream.getLast? =
      some completeChunk) ∧
    (∀ c ∈ (runTurn llm intent ents store history userMsg tUser tAsst).stream,
      c.type = ChunkType.text ∨ c.type = ChunkType.tool_call ∨
      c.type = ChunkType.error ∨ c.type = ChunkType.complete) :=
  ⟨chunkStream_countP _ _ _, chunkStream_getLast _ _ _, fun c _ => chunkType_cases c⟩

/-- Claim C2: after the decision step, exactly one of {pending tool calls
non-empty, final response set} holds — never both and never neither. -/
theorem decision_invariant (st : AgentState) (llm : LLMOutcome)
    (intent : Intent) (ents : Entities) :
    ((applyDecision st (decideNode llm intent ents)).pendingToolCalls ≠ [] ∧
      (applyDecision st (decideNode llm intent ents)).finalResponse = none) ∨
    ((applyDecision st (decideNode llm intent ents)).pendingToolCalls = [] ∧
      (applyDecision st (decideNode llm intent ents)).finalResponse ≠ none) := by
  cases llm with
  | failure => right; simp [decideNode, applyDecision]
  | timeout => right; simp [decideNode, applyDecision]
  | text t =>
    cases hc : (intent == Intent.clarificationNeeded || !entitiesComplete intent ents) with
    | true => right; simp [decideNode, hc, applyDecision]
    | false => right; simp [decideNode, hc, applyDecision]
  | toolRequest calls =>
    cases hc : (intent == Intent.clarificationNeeded || !entitiesComplete intent ents) with
    | true => right; simp [decideNode, hc, applyDecision]
    | false =>
      cases calls with
      | nil => right; simp [decideNode, hc, applyDecision]
      | cons c rest => left; simp [decideNode, hc, applyDecision]

/-- Claim C3: when the model call returned a usable answer but the required
entities for the classified intent are missing, the decision node emits the
clarification question and no tool call is pending for the turn. -/
theorem incomplete_entities_clarify (llm : LLMOutcome) (intent : Intent)
    (ents : Entities) (st : AgentState)
    (hok : llm.isOk = true) (hmiss : entitiesComplete intent ents = false) :
    decideNode llm intent ents = Decision.clarification (clarificationQuestion intent) ∧
    (applyDecision st (decideNode llm intent ents)).pendingToolCalls = [] := by
  cases llm with
  | failure => simp [LLMOutcome.isOk] at hok
  | timeout => simp [LLMOutcome.isOk] at hok
  | text t =>
    have hc : (intent == Intent.clarificationNeeded || !entitiesComplete intent ents) = true := by
      simp [hmiss]
    simp [decideNode, hc, applyDecision]
  | toolRequest calls =>
    have hc : (intent == Intent.clarificationNeeded || !entitiesComplete intent ents) = true := by
      simp [hmiss]
    simp [decideNode, hc, applyDecision]

/-- Witness for C3: a category query with no category named yields the
clarification question and leaves no pending tool call. -/
theorem incomplete_entities_clarify_witness :
    decideNode (.text "total") Intent.spendingLookup [] =
      Decision.clarification (clarificationQuestion Intent.spendingLookup) ∧
    (applyDecision ⟨[], none, [], [], [], none⟩
      (decideNode (.text "total") Intent.spendingLookup [])).pendingToolCalls = [] :=
  incomplete_entities_clarify (.text "total") Intent.spendingLookup []
    ⟨[], none, [], [], [], none⟩ (by decide) (by decide)

/-- Claim C5: a timed-out model call takes exactly the same path as a failed
one, the turn resolves to the deterministic canned fallback response, and the
stream still terminates with the completion marker. -/
theorem llm_failure_fallback (intent : Intent) (ents : Entities) (store : Store)
    (history : List Turn) (userMsg : String) (tUser tAsst : Nat) :
    runTurn .timeout intent ents store history userMsg tUser tAsst =
      runTurn .failure intent ents store history userMsg tUser tAsst ∧
    (runTurn .failure intent ents store history userMsg tUser tAsst).response =
      fallbackResponse ∧
    (runTurn .failure intent ents store history userMsg tUser tAsst).stream.getLast? =
      some completeChunk := by
  refine ⟨rfl, ?_, runTurn_stream_getLast _ _ _ _ _ _ _ _⟩
  simp [runTurn, decideNode, generateResponse, ite_self]

/-- Claim C6: a turn visits the tool-execution state at most once, every
visit is followed directly by response generation (never by a second tool
round or a return to intent analysis), intent analysis happens exactly once,
and the turn ends in the terminal state. -/
theorem one_tool_round (d : Decision) :
    (turnTrace d).count OrchState.executingTools ≤ 1 ∧
    (∀ i : Nat, (turnTrace d)[i]? = some OrchState.executingTools →
      (turnTrace d)[i+1]? = some OrchState.generatingResponse) ∧
    (turnTrace d).count OrchState.analyzingIntent = 1 ∧
    (turnTrace d).getLast? = some OrchState.done := by
  cases d with
  | toolCalls calls =>
    simp only [turnTrace, List.cons_append, List.nil_append]
    refine ⟨by decide, ?_, by decide, by decide⟩
    intro i h
    rcases i with _ | _ | _ | _ | _ | i <;> simp_all
  | finalResponse t =>
    simp only [turnTrace, List.cons_append, List.nil_append]
    refine ⟨by decide, ?_, by decide, by decide⟩
    intro i h
    rcases i with _ | _ | _ | _ | i <;> simp_all
  | clarification q =>
    simp only [turnTrace, List.cons_append, List.nil_append]
    refine ⟨by decide, ?_, by decide, by decide⟩
    intro i h
    rcases i with _ | _ | _ | _ | i <;> simp_all

/-- Claim C7: each completed exchange appends the user turn and the emitted
assistant turn to the carried-over history, preserving the ordered sequence
and growing its length by exactly two. -/
theorem history_grows_by_two (llm : LLMOutcome) (intent : Intent) (ents : Entities)
    (store : Store) (history : List Turn) (userMsg : String) (tUser tAsst : Nat) :
    (runTurn llm intent ents store history userMsg tUser tAsst).newHistory =
      history ++ [⟨Role.user, userMsg, tUser⟩,
        ⟨Role.assistant,
          (runTurn llm intent ents store history userMsg tUser tAsst).response, tAsst⟩] ∧
    (runTurn llm intent ents store history userMsg tUser tAsst).newHistory.length =
      history.length + 2 := by
  refine ⟨rfl, ?_⟩
  simp [runTurn]

/-- Claim C4: in a batch with at least one failing and at least one
succeeding call, every call is attempted (one tagged result per call, in
order), the i-th result carries the id of the i-th call, and the generated
response mentions the rendering of every result — successes incorporated and
failures noted. -/
theorem batch_mixed_outcome (store : Store) (calls : List ToolCall)
    (hfail : ∃ c ∈ calls, (execTool store c).isErr = true)
    (hsucc : ∃ c ∈ calls, (execTool store c).isErr = false) :
    (execTools store calls).length = calls.length ∧
    (∀ i : Nat, ((execTools store calls)[i]?).map Prod.fst =
      (calls[i]?).map ToolCall.id) ∧
    (∀ r ∈ execTools store calls,
      mentions (generateResponse none (execTools store calls)) (renderResult r)) := by
  obtain ⟨cg, hcg, hcgE⟩ := hsucc
  refine ⟨by simp [execTools], ?_, ?_⟩
  · intro i
    simp only [execTools, List.getElem?_map, Option.map_map]
    cases h : calls[i]? <;> simp
  · intro r hr
    have hcne : calls ≠ [] := by
      rintro rfl
      exact absurd hcg (List.not_mem_nil _)
    have hne : (execTools store calls).isEmpty = false := by
      cases calls with
      | nil => exact absurd rfl hcne
      | cons a t => simp [execTools]
    have hmem : (cg.id, execTool store cg) ∈ execTools store calls := by
      simp only [execTools, List.mem_map]
      exact ⟨cg, hcg, rfl⟩
    have hallF : ((execTools store calls).all (fun r => r.2.isErr)) = false := by
      rw [Bool.eq_false_iff]
      intro hall
      have hx := List.all_eq_true.mp hall _ hmem
      simp [hcgE] at hx
    have hresp : generateResponse none (execTools store calls) =
        summaryHeader ++ renderResults (execTools store calls) := by
      simp [generateResponse, hne, hallF]
    rw [hresp]
    exact mentions_append_left _ (mentions_renderResults hr)

/-- Witness for C4: a two-call batch where the category query succeeds and
the malformed merchant query fails — both are attempted and the failure is
noted in the response. -/
theorem batch_mixed_outcome_witness :
    (execTools sampleStore [sampleGoodCall, sampleBadCall]).length =
      ([sampleGoodCall, sampleBadCall] : List ToolCall).length ∧
    mentions
      (generateResponse none (execTools sampleStore [sampleGoodCall, sampleBadCall]))
      (renderResult (sampleBadCall.id, execTool sampleStore sampleBadCall)) :=
  ⟨(batch_mixed_outcome sampleStore [sampleGoodCall, sampleBadCall]
      ⟨sampleBadCall, by decide, by decide⟩ ⟨sampleGoodCall, by decide, by decide⟩).1,
   (batch_mixed_outcome sampleStore [sampleGoodCall, sampleBadCall]
      ⟨sampleBadCall, by decide, by decide⟩ ⟨sampleGoodCall, by decide, by decide⟩).2.2
     (sampleBadCall.id, execTool sampleStore sampleBadCall) (by decide)⟩

/-- Claim C8: the response generation node always produces non-empty text,
and when every tool call in the batch failed the produced response mentions
the inability to retrieve the data. -/
theorem response_nonempty_and_apology (direct : Option String)
    (rs : List (Nat × ToolResult)) :
    generateResponse direct rs ≠ "" ∧
    (rs ≠ [] → rs.all (fun r => r.2.isErr) = true →
      mentions (generateResponse none rs) "unable to retrieve your data") := by
  constructor
  · cases direct with
    | some t =>
      cases h : t.isEmpty with
      | true =>
        simp [generateResponse, h]
        decide
      | false =>
        have ht : t ≠ "" := by
          rw [Bool.eq_false_iff] at h
          simpa [String.isEmpty_iff] using h
        simp [generateResponse, h, ht]
    | none =>
      cases he : rs.isEmpty with
      | true =>
        simp [generateResponse, he]
        decide
      | false =>
        cases ha : rs.all (fun r => r.2.isErr) with
        | true =>
          have hgen : generateResponse none rs = apologyText ++ renderResults rs := by
            simp [generateResponse, he, ha]
          rw [hgen]
          exact append_ne_empty_left _ (by decide)
        | false =>
          have hgen : generateResponse none rs = summaryHeader ++ renderResults rs := by
            simp [generateResponse, he, ha]
          rw [hgen]
          exact append_ne_empty_left _ (by decide)
  · intro h1 h2
    have he : rs.isEmpty = false := by
      rw [Bool.eq_false_iff]
      simpa [List.isEmpty_iff] using h1
    have hgen : generateResponse none rs = apologyText ++ renderResults rs := by
      simp [generateResponse, he, h2]
    rw [hgen]
    apply mentions_append_right
    exact ⟨"I apologize: I was ".data, ". Please try again later.".data, by decide⟩

/-- Witness for C8: a batch whose single call failed yields a non-empty
response that mentions the inability to retrieve the data. -/
theorem response_nonempty_and_apology_witness :
    generateResponse none [(1, ToolResult.err "store unavailable")] ≠ "" ∧
    mentions (generateResponse none [(1, ToolResult.err "store unavailable")])
      "unable to retrieve your data" :=
  ⟨(response_nonempty_and_apology none [(1, .err "store unavailable")]).1,
   (response_nonempty_and_apology none [(1, .err "store unavailable")]).2
     (by decide) (by decide)⟩

end WalletAI
